import Mathlib

/-!
Verification development for the Sipp chat relay (SippChat/Sipp, Go).

The repository holds one routed-message server (src/server.go: a connection
registry keyed by connection, a shared message queue and a dispatch loop
with broadcast and directed delivery) and two chat-style variants
(src/unnamed/part_000 and the second half of src/unnamed/part_001: a name
prompt, line broadcast and a /list command), plus the Straw markup
serializer (end of src/unnamed/part_002).

Each definition below is a shallow embedding of one Go function, translated
from the source. Connections are modelled as natural numbers; the Go maps
keyed by net.Conn are modelled as association lists with unique keys; the
result of json.Unmarshal on the first line is modelled as an Option value
(none for a parse failure), since the JSON decoder itself is Go library
code. Network writes are returned as explicit lists of (connection, payload)
pairs in the order the code issues them.
-/

namespace Sipp

/-- A connection handle (net.Conn), an opaque key of the client maps. -/
abbrev Conn := Nat

/-- HandshakeReq of src/server.go: fields magic and client of the first line. -/
structure HandshakeReq where
  Magic : String
  Client : String
deriving DecidableEq, Repr

/-- HandshakeRes of src/server.go: the success flag and message of the reply. -/
structure HandshakeRes where
  Success : Bool
  Message : String
deriving DecidableEq, Repr

/-- Message of src/server.go: sender id, receiver id (empty means broadcast)
and content. -/
structure Message where
  Sender : String
  Receiver : String
  Content : String
deriving DecidableEq, Repr

/-! ## Straw (pkg/straw, end of src/unnamed/part_002) -/

/-- The formatting map of pkg/straw: tag name to terminal escape. -/
def formatMap : List (String × String) :=
  [("black", "\x1b[30m"), ("red", "\x1b[31m"), ("green", "\x1b[32m"),
   ("yellow", "\x1b[33m"), ("blue", "\x1b[34m"), ("magenta", "\x1b[35m"),
   ("cyan", "\x1b[36m"), ("white", "\x1b[37m"), ("b", "\x1b[1m"),
   ("i", "\x1b[3m"), ("u", "\x1b[4m"), ("s", "\x1b[9m")]

/-- A character the tag pattern of pkg/straw accepts: the class [a-zA-Z]. -/
def isTagLetter (c : Char) : Bool :=
  ('a' ≤ c && c ≤ 'z') || ('A' ≤ c && c ≤ 'Z')

/-- Match of the regular expression body after an opening angle bracket:
an optional slash, one or more letters, then a closing angle bracket.
Returns the closing flag, the tag name and the characters after the tag.
The greedy letter run is maximal; a shorter run would end at a letter,
which the closing bracket test refuses, so takeWhile is exact here. -/
def parseTag (cs : List Char) : Option (Bool × List Char × List Char) :=
  let closing := match cs with
    | '/' :: _ => true
    | _ => false
  let cs1 := if closing then cs.tail else cs
  let name := cs1.takeWhile isTagLetter
  let rest := cs1.dropWhile isTagLetter
  if name.isEmpty then none
  else
    match rest with
    | '>' :: r => some (closing, name, r)
    | _ => none

/-- What pkg/straw appends for one matched tag: the escape of a known opening
tag, the reset sequence for a known closing tag, nothing for an unknown tag
(the matched text is skipped either way, since lastEnd advances). -/
def emitTag (closing : Bool) (name : List Char) : List Char :=
  match formatMap.lookup (String.mk name) with
  | some fmt => if closing then "\x1b[0m".data else fmt.data
  | none => []

/-- The scan of straw.Serialize over the input characters: at each position,
try to match a tag (the leftmost, non-overlapping matching of the regular
expression); on a match, emit per the format map and continue after the tag,
otherwise copy one character. Fuel equal to the input length makes the
recursion structural; every step consumes at least one character, so the
fuel never runs out on the initial call. -/
def serializeAux (fuel : Nat) (l : List Char) : List Char :=
  match fuel, l with
  | 0, l => l
  | _ + 1, [] => []
  | fuel + 1, c :: cs =>
    if c = '<' then
      match parseTag cs with
      | some (closing, name, rest) => emitTag closing name ++ serializeAux fuel rest
      | none => c :: serializeAux fuel cs
    else
      c :: serializeAux fuel cs

/-- straw.Serialize: convert formatting tags in the input to terminal escapes. -/
def strawSerialize (input : String) : String :=
  String.mk (serializeAux input.data.length input.data)

/-! ## Handshake (src/server.go lines 197 to 249) -/

/-- The expected magic constant of the handshake. -/
def expectedMagic : String := "SippClientHello"

/-- The fixed rejection message of the handshake. -/
def invalidMsg : String := "Invalid handshake"

/-- serialize of src/server.go: empty strings are passed through, everything
else goes through straw.Serialize. -/
def serialize (message : String) : String :=
  if message = "" then "" else strawSerialize message

/-- sendResponse of src/server.go, as the response record it marshals: the
success flag and the serialized message. -/
def sendResponse (success : Bool) (message : String) : HandshakeRes :=
  { Success := success, Message := serialize message }

/-- The accept or reject decision of processHandshake in src/server.go on a
parsed request: reject when the magic differs from the constant or the
client name is empty, sending the fixed invalid message; accept otherwise,
sending the message of the day. -/
def handshakeResponse (req : HandshakeReq) (motd : String) : HandshakeRes :=
  if req.Magic ≠ expectedMagic ∨ req.Client = "" then sendResponse false invalidMsg
  else sendResponse true motd

/-- One escaped character of the JSON string encoder of encoding/json (the
default encoder HTML-escapes angle brackets and ampersands). -/
def goJSONEscapeChar (c : Char) : String :=
  if c = '"' then "\\\""
  else if c = '\\' then "\\\\"
  else if c = '\n' then "\\n"
  else if c = '\r' then "\\r"
  else if c = '\t' then "\\t"
  else if c = '<' then "\\u003c"
  else if c = '>' then "\\u003e"
  else if c = '&' then "\\u0026"
  else if c.val < 32 then
    "\\u00" ++ String.mk [(Nat.digitChar (c.val.toNat / 16)), (Nat.digitChar (c.val.toNat % 16))]
  else if c.val = 0x2028 then "\\u2028"
  else if c.val = 0x2029 then "\\u2029"
  else String.singleton c

/-- A Go JSON string literal for the given text. -/
def goJSONString (s : String) : String :=
  "\"" ++ String.join (s.data.map goJSONEscapeChar) ++ "\""

/-- json.Marshal of a HandshakeRes, field order and tags as declared. -/
def encodeHandshakeRes (r : HandshakeRes) : String :=
  "\x7b\"success\":" ++ (if r.Success then "true" else "false")
    ++ ",\"message\":" ++ goJSONString r.Message ++ "\x7d"

/-- writeMessage of src/server.go on a handshake response: the marshalled
record with the trailing newline, as flushed to the connection. -/
def writeMessage (r : HandshakeRes) : String :=
  encodeHandshakeRes r ++ "\n"

/-- processHandshake of src/server.go, over the parse result of the first
line (none models a json.Unmarshal failure). Returns the wire writes and
whether an error is returned to handleConn. A parse failure returns the
error with no write; a parsed request is answered with exactly one response
record and a nil error — also on rejection, since the rejection branch
returns nil after sending the invalid response. -/
def processHandshake (p : Option HandshakeReq) (motd : String) :
    List String × Bool :=
  match p with
  | none => ([], true)
  | some req => ([writeMessage (handshakeResponse req motd)], false)

/-! ## Client registry and routing (src/server.go lines 164 to 351) -/

/-- The clients map of src/server.go: connection to client id. -/
abbrev Registry := List (Conn × String)

/-- Lookup of a connection in the clients map. -/
def lookupConn (reg : Registry) (c : Conn) : Option String :=
  match reg with
  | [] => none
  | (k, v) :: rest => if k = c then some v else lookupConn rest c

/-- addClient of src/server.go: map assignment, replacing the entry of the
key when present and appending otherwise. -/
def addClient (reg : Registry) (c : Conn) (clientID : String) : Registry :=
  match reg with
  | [] => [(c, clientID)]
  | (k, v) :: rest =>
    if k = c then (c, clientID) :: rest else (k, v) :: addClient rest c clientID

/-- removeClient of src/server.go: when the connection is present, delete it
and log the disconnect notification; otherwise do nothing. Returns the new
registry and the notifications issued. -/
def removeClient (reg : Registry) (c : Conn) : Registry × List String :=
  match lookupConn reg c with
  | some clientID =>
    (reg.filter (fun p => p.1 != c), ["Client " ++ clientID ++ " disconnected"])
  | none => (reg, [])

/-- broadcastMessage of src/server.go: send the message to every client of
the registry whose id differs from the sender id. The message sent carries
the sender and content; its receiver field is left at the zero value. -/
def broadcastMessage (reg : Registry) (senderID content : String) :
    List (Conn × Message) :=
  (reg.filter (fun p => p.2 != senderID)).map
    (fun p => (p.1, { Sender := senderID, Receiver := "", Content := content }))

/-- The directed branch of handleMessages in src/server.go: scan the clients
map for the first id equal to the receiver, send to it alone and break. -/
def directedSend (reg : Registry) (msg : Message) : List (Conn × Message) :=
  match reg with
  | [] => []
  | (conn, id) :: rest =>
    if id = msg.Receiver then
      [(conn, { Sender := msg.Sender, Receiver := "", Content := msg.Content })]
    else directedSend rest msg

/-- handleMessages of src/server.go over a finite queue prefix, with the
registry mutex made explicit. Each branch starts by acquiring the mutex, so
a held mutex blocks the loop forever (none). The broadcast branch locks and
unlocks inside broadcastMessage. The directed branch locks in the loop body
and only defers the unlock — a defer inside a for range loop runs at
function return, never per iteration — so after a directed delivery the
mutex stays held for the rest of the loop. -/
def handleMessages (lockHeld : Bool) (queue : List Message) (reg : Registry) :
    Option (List (Conn × Message)) :=
  match queue with
  | [] => some []
  | msg :: rest =>
    if lockHeld then none
    else if msg.Receiver = "" then
      (handleMessages false rest reg).map
        (fun ws => broadcastMessage reg msg.Sender msg.Content ++ ws)
    else
      (handleMessages true rest reg).map (fun ws => directedSend reg msg ++ ws)

/-- readMessage of src/server.go on a parsed inbound record: only the content
field is returned to handleConn. -/
def readMessage (msg : Message) : String :=
  msg.Content

/-- The record handleConn of src/server.go places in the message queue for
one line read from a registered client: the client id as sender, the read
content, and the receiver left at its zero value, the empty string. -/
def queuedMessage (clientID content : String) : Message :=
  { Sender := clientID, Receiver := "", Content := content }

/-- The registration phase of handleConn in src/server.go: run the handshake
on the parse result of the first line; when it returns an error, stop
without touching the registry; otherwise register the connection under its
remote address. Returns the registry after the phase and the handshake
writes. -/
def handleConn (p : Option HandshakeReq) (motd : String) (reg : Registry)
    (conn : Conn) (clientID : String) : Registry × List String :=
  let out := processHandshake p motd
  if out.2 then (reg, out.1) else (addClient reg conn clientID, out.1)

/-! ## Chat variants (src/unnamed/part_000, second half of src/unnamed/part_001) -/

/-- The clients map of the chat variants: connection to display name. The Go
map stores a Client pointer holding the connection and name; the connection
field always equals the map key, so an entry is modelled by the pair of key
and name. -/
abbrev ChatRegistry := List (Conn × String)

/-- A character unicode.IsSpace accepts: the Latin-1 spaces and the Unicode
White Space property. -/
def goIsSpace (c : Char) : Bool :=
  c = ' ' || c = '\t' || c = '\n' || (11 ≤ c.val && c.val ≤ 13)
    || c.val = 0x85 || c.val = 0xA0 || c.val = 0x1680
    || (0x2000 ≤ c.val && c.val ≤ 0x200A)
    || c.val = 0x2028 || c.val = 0x2029 || c.val = 0x202F
    || c.val = 0x205F || c.val = 0x3000

/-- strings.TrimSpace: drop leading and trailing white space. -/
def trimSpace (s : String) : String :=
  String.mk ((((s.data.dropWhile goIsSpace).reverse).dropWhile goIsSpace).reverse)

/-- One character of html.EscapeString. -/
def htmlEscapeChar (c : Char) : String :=
  if c = '&' then "&amp;"
  else if c = '\'' then "&#39;"
  else if c = '<' then "&lt;"
  else if c = '>' then "&gt;"
  else if c = '"' then "&#34;"
  else String.singleton c

/-- html.EscapeString: escape the five special characters. -/
def htmlEscape (s : String) : String :=
  String.join (s.data.map htmlEscapeChar)

/-- The display name the accept loop of the part_001 chat variant registers
for a connection, from the first line read: trim the surrounding white
space, and substitute Guest when the result is empty. -/
def chatRegisterName (line : String) : String :=
  let name := trimSpace line
  if name = "" then "Guest" else name

/-- The display name the accept loop of src/unnamed/part_000 registers: the
trimmed line with no further change (the Guest default was moved into the
client program there). -/
def chatRegisterNamePartZero (line : String) : String :=
  trimSpace line

/-- The sanitized form handleClient gives every inbound line before
interpreting it: trimmed, then HTML-escaped. -/
def sanitizeMessage (line : String) : String :=
  htmlEscape (trimSpace line)

/-- Whether the first string has the second as a leading segment, character
by character: strings.HasPrefix. -/
def hasPrefixChars : List Char → List Char → Bool
  | _, [] => true
  | [], _ :: _ => false
  | c :: cs, p :: ps => c = p && hasPrefixChars cs ps

/-- strings.HasPrefix on strings. -/
def goHasPrefix (s pre : String) : Bool :=
  hasPrefixChars s.data pre.data

/-- broadcast of the chat variants: write the text to every client of the
map, the sender included. -/
def broadcast (reg : ChatRegistry) (msg : String) : List (Conn × String) :=
  reg.map (fun p => (p.1, msg))

/-- handleCommand of the part_001 chat variant: /list writes the header and
then, under the lock, one line per registered client name, everything to the
issuing connection; any other command writes the unknown-command line to the
issuing connection. -/
def handleCommand (reg : ChatRegistry) (requester : Conn) (cmd : String) :
    List (Conn × String) :=
  if cmd = "/list" then
    (requester, "Online users:\n") :: reg.map (fun p => (requester, p.2 ++ "\n"))
  else
    [(requester, "Unknown command\n")]

/-- One iteration of the handleClient read loop of the part_001 chat
variant, on one line read from the sender: sanitize it, then either run it
as a command or broadcast it prefixed with the sender name. Returns the
writes and the registry after the iteration (the loop never mutates the
registry). -/
def handleClientLine (reg : ChatRegistry) (senderConn : Conn)
    (senderName : String) (line : String) :
    List (Conn × String) × ChatRegistry :=
  let s := sanitizeMessage line
  if goHasPrefix s "/" then (handleCommand reg senderConn s, reg)
  else (broadcast reg (senderName ++ ": " ++ s ++ "\n"), reg)

/-! ## Helper lemmas -/

/-- Membership in the writes of broadcastMessage: exactly the registry
entries whose id differs from the sender, each receiving the one message
built from sender and content. -/
lemma mem_broadcastMessage {reg : Registry} {sender content : String}
    {conn : Conn} {m : Message} :
    (conn, m) ∈ broadcastMessage reg sender content ↔
      ∃ id, (conn, id) ∈ reg ∧ id ≠ sender
        ∧ m = { Sender := sender, Receiver := "", Content := content } := by
  unfold broadcastMessage
  simp only [List.mem_map, List.mem_filter, bne_iff_ne, ne_eq, Prod.mk.injEq]
  constructor
  · rintro ⟨⟨a, b⟩, ⟨hmem, hb⟩, rfl, hm⟩
    exact ⟨b, hmem, hb, hm.symm⟩
  · rintro ⟨id, hmem, hne, rfl⟩
    exact ⟨(conn, id), ⟨hmem, hne⟩, rfl, rfl⟩

/-- In a registry whose connection keys are pairwise distinct, a connection
determines its client id. -/
lemma registry_key_determines_id {reg : Registry}
    (hnd : (reg.map Prod.fst).Nodup) {c : Conn} {x y : String}
    (hx : (c, x) ∈ reg) (hy : (c, y) ∈ reg) : x = y := by
  induction reg with
  | nil => cases hx
  | cons p rest ih =>
    obtain ⟨k, v⟩ := p
    simp only [List.map_cons, List.nodup_cons] at hnd
    rcases List.mem_cons.mp hx with h1 | h1 <;> rcases List.mem_cons.mp hy with h2 | h2
    · rw [Prod.mk.injEq] at h1 h2
      rw [h1.2, h2.2]
    · rw [Prod.mk.injEq] at h1
      exact absurd (by simpa [← h1.1] using List.mem_map_of_mem Prod.fst h2) hnd.1
    · rw [Prod.mk.injEq] at h2
      exact absurd (by simpa [← h2.1] using List.mem_map_of_mem Prod.fst h1) hnd.1
    · exact ih hnd.2 h1 h2

/-- Looking a connection up after filtering out that connection finds
nothing. -/
lemma lookupConn_filter_self (reg : Registry) (c : Conn) :
    lookupConn (reg.filter (fun p => p.1 != c)) c = none := by
  induction reg with
  | nil => rfl
  | cons p rest ih =>
    obtain ⟨k, v⟩ := p
    by_cases h : k = c
    · simp [List.filter_cons, h, ih]
    · simp [List.filter_cons, h, lookupConn, ih]

/-- A queue of messages with empty receiver fields is dispatched as the
concatenation of their broadcasts, with the registry mutex free after every
iteration. -/
lemma handleMessages_all_broadcast (reg : Registry) :
    ∀ q : List Message, (∀ m ∈ q, m.Receiver = "") →
      handleMessages false q reg
        = some (q.flatMap fun m => broadcastMessage reg m.Sender m.Content)
  | [], _ => by simp [handleMessages]
  | m :: rest, h => by
    have hm : m.Receiver = "" := h m (List.mem_cons_self m rest)
    have ih := handleMessages_all_broadcast reg rest
      (fun x hx => h x (List.mem_cons_of_mem m hx))
    simp [handleMessages, hm, ih, List.flatMap_cons]

/-- Dropping from the front twice drops once. -/
lemma dropWhile_dropWhile (p : Char → Bool) (l : List Char) :
    (l.dropWhile p).dropWhile p = l.dropWhile p := by
  induction l with
  | nil => rfl
  | cons c cs ih =>
    by_cases h : p c
    · simp [List.dropWhile_cons, h, ih]
    · simp [List.dropWhile_cons, h]

/-- dropWhile removes a front segment: the dropped part can be put back. -/
lemma exists_append_dropWhile (p : Char → Bool) (l : List Char) :
    ∃ t, t ++ l.dropWhile p = l := by
  induction l with
  | nil => exact ⟨[], rfl⟩
  | cons c cs ih =>
    by_cases h : p c
    · obtain ⟨t, ht⟩ := ih
      exact ⟨c :: t, by simp [List.dropWhile_cons, h, ht]⟩
    · exact ⟨[], by simp [List.dropWhile_cons, h]⟩

/-- dropWhile never lengthens a list. -/
lemma dropWhile_length_le (p : Char → Bool) (l : List Char) :
    (l.dropWhile p).length ≤ l.length := by
  induction l with
  | nil => simp
  | cons c cs ih =>
    by_cases h : p c
    · simp only [List.dropWhile_cons, if_pos h, List.length_cons]
      omega
    · simp [List.dropWhile_cons, h]

/-- Trimming the back of a list already trimmed at the front leaves the
front trimmed: the core of the idempotence of trimSpace. -/
lemma dropWhile_reverse_dropWhile_reverse (p : Char → Bool) (m : List Char)
    (hm : m.dropWhile p = m) :
    ((m.reverse.dropWhile p).reverse).dropWhile p
      = (m.reverse.dropWhile p).reverse := by
  obtain ⟨t, ht⟩ := exists_append_dropWhile p m.reverse
  have hm2 : m = (m.reverse.dropWhile p).reverse ++ t.reverse := by
    have h := congrArg List.reverse ht
    simpa using h.symm
  cases hrev : (m.reverse.dropWhile p).reverse with
  | nil => simp [hrev]
  | cons c cs =>
    have hmc : m = c :: (cs ++ t.reverse) := by rw [hm2, hrev]; simp
    have hpc : p c = false := by
      by_contra hpc
      have hpc : p c = true := by simpa using hpc
      rw [hmc, List.dropWhile_cons, if_pos hpc] at hm
      have hlen := congrArg List.length hm
      have hle := dropWhile_length_le p (cs ++ t.reverse)
      simp only [List.length_cons] at hlen
      omega
    simp [List.dropWhile_cons, hpc]

/-- strings.TrimSpace is idempotent: the registered name of the chat accept
loop carries no surrounding white space. -/
lemma trimSpace_idem (s : String) : trimSpace (trimSpace s) = trimSpace s := by
  unfold trimSpace
  have hm : (s.data.dropWhile goIsSpace).dropWhile goIsSpace
      = s.data.dropWhile goIsSpace := dropWhile_dropWhile goIsSpace s.data
  have hA := dropWhile_reverse_dropWhile_reverse goIsSpace
    (s.data.dropWhile goIsSpace) hm
  show String.mk _ = String.mk _
  rw [String.data]
  rw [hA, List.reverse_reverse, dropWhile_dropWhile]

/-! ## Claims -/

/-- Claim C1: the claim says a connection whose handshake is rejected (wrong
magic or empty client name) is never added to the Registry and never routed.
The code differs: processHandshake of src/server.go sends the rejection
response and then returns nil, so handleConn goes on to call addClient and
to enqueue the messages of that connection. This theorem evaluates the
embedding at both rejection reasons: the handshake response is the
rejection, yet the connection lands in the registry, and a later broadcast
is delivered to it. -/
theorem c1_rejected_handshake_still_registered :
    handshakeResponse ⟨"wrong", "alice"⟩ "" = ⟨false, "Invalid handshake"⟩ ∧
    (processHandshake (some ⟨"wrong", "alice"⟩) "").2 = false ∧
    (handleConn (some ⟨"wrong", "alice"⟩) "" [] 0 "10.0.0.1:50000").1
      = [(0, "10.0.0.1:50000")] ∧
    (handleConn (some ⟨"SippClientHello", ""⟩) "" [] 1 "10.0.0.2:50001").1
      = [(1, "10.0.0.2:50001")] ∧
    broadcastMessage [(0, "10.0.0.1:50000")] "10.0.0.2:50001" "hello"
      = [(0, ⟨"10.0.0.2:50001", "", "hello"⟩)] := by decide

/-- Claim C2 counterexample: the claim quantifies over the cited broadcast
operations, and the chat-variant broadcast of part_000 and part_001 writes
the line to every registered connection, the sender included. With alice
registered on connection 0 and bob on connection 1, a line sent by alice is
written to connection 0, her own. -/
theorem c2_chat_broadcast_writes_to_sender :
    (handleClientLine [(0, "alice"), (1, "bob")] 0 "alice" "hi\n").1
      = [(0, "alice: hi\n"), (1, "alice: hi\n")] ∧
    ((0 : Conn), "alice: hi\n")
      ∈ (handleClientLine [(0, "alice"), (1, "bob")] 0 "alice" "hi\n").1 := by
  decide

/-- Claim C2 as amended: in the routed server of src/server.go,
broadcastMessage delivers the message built from sender and content to
exactly the registered clients whose id differs from the sender id, and
never to a connection registered under the sender id (the registry keys
being pairwise distinct, as for a Go map). -/
theorem c2_router_broadcast_exact (reg : Registry) (sender content : String)
    (hnd : (reg.map Prod.fst).Nodup) :
    (∀ conn m, (conn, m) ∈ broadcastMessage reg sender content →
      m = { Sender := sender, Receiver := "", Content := content }) ∧
    (∀ conn id, (conn, id) ∈ reg → id ≠ sender →
      (conn, { Sender := sender, Receiver := "", Content := content })
        ∈ broadcastMessage reg sender content) ∧
    (∀ conn, (conn, sender) ∈ reg →
      ∀ m, (conn, m) ∉ broadcastMessage reg sender content) := by
  refine ⟨?_, ?_, ?_⟩
  · intro conn m hm
    obtain ⟨id, _, _, h⟩ := mem_broadcastMessage.mp hm
    exact h
  · intro conn id hmem hne
    exact mem_broadcastMessage.mpr ⟨id, hmem, hne, rfl⟩
  · intro conn hmem m hm
    obtain ⟨id, hid, hne, _⟩ := mem_broadcastMessage.mp hm
    exact hne (registry_key_determines_id hnd hid hmem)

/-- Claim C2 witness: on the registry with alice on connection 0 and bob on
connection 1, a broadcast sent by alice reaches bob and never alice. -/
theorem c2_router_broadcast_exact_witness :
    ((1 : Conn), ({ Sender := "alice", Receiver := "", Content := "hi" } : Message))
      ∈ broadcastMessage [(0, "alice"), (1, "bob")] "alice" "hi" ∧
    ∀ m, ((0 : Conn), m) ∉ broadcastMessage [(0, "alice"), (1, "bob")] "alice" "hi" :=
  ⟨(c2_router_broadcast_exact [(0, "alice"), (1, "bob")] "alice" "hi"
      (by decide)).2.1 1 "bob" (by decide) (by decide),
   fun m => (c2_router_broadcast_exact [(0, "alice"), (1, "bob")] "alice" "hi"
      (by decide)).2.2 0 (by decide) m⟩

/-- Claim C3: the handshake validator accepts the expected magic with a
nonempty client name, answering success and the message of the day, and
rejects a wrong magic or an empty client name with the fixed invalid
message. -/
theorem c3_handshake_validator_cases (motd : String) :
    handshakeResponse ⟨"SippClientHello", "alice"⟩ motd
      = { Success := true, Message := serialize motd } ∧
    handshakeResponse ⟨"wrong", "alice"⟩ motd
      = { Success := false, Message := "Invalid handshake" } ∧
    handshakeResponse ⟨"SippClientHello", ""⟩ motd
      = { Success := false, Message := "Invalid handshake" } := by
  refine ⟨?_, ?_, ?_⟩
  · unfold handshakeResponse
    rw [if_neg (by decide)]
    rfl
  · unfold handshakeResponse
    rw [if_pos (by decide)]
    decide
  · unfold handshakeResponse
    rw [if_pos (by decide)]
    decide

/-- Claim C4: the claim says the dispatch loop proceeds to the next queued
message after any delivery, directed ones included. The code differs: the
directed branch of handleMessages locks the registry mutex and only defers
the unlock, and a defer inside a for range loop runs at function return, so
the mutex stays held and the next message that locks it blocks forever.
Evaluating the embedding: a single directed delivery works, a directed
delivery followed by any further message wedges the loop (none), while
broadcasts alone keep draining in arrival order. -/
theorem c4_directed_delivery_wedges_dispatch :
    handleMessages false [⟨"alice", "bob", "hi"⟩] [(0, "alice"), (1, "bob")]
      = some [(1, ⟨"alice", "", "hi"⟩)] ∧
    handleMessages false [⟨"alice", "bob", "hi"⟩, ⟨"alice", "", "again"⟩]
      [(0, "alice"), (1, "bob")] = none ∧
    handleMessages false [⟨"alice", "", "one"⟩, ⟨"alice", "", "two"⟩]
      [(0, "alice"), (1, "bob")]
      = some [(1, ⟨"alice", "", "one"⟩), (1, ⟨"alice", "", "two"⟩)] := by decide

/-- Claim C5: removeClient is idempotent. Removing an absent connection is a
no-op with no notification; removing a present one deletes it and issues
exactly one disconnect notification; removing it again right after changes
nothing and issues nothing. -/
theorem c5_removeClient_idempotent (reg reg2 : Registry) (c c2 : Conn)
    (id : String) (h : lookupConn reg c = some id)
    (h2 : lookupConn reg2 c2 = none) :
    removeClient reg2 c2 = (reg2, []) ∧
    (removeClient reg c).2 = ["Client " ++ id ++ " disconnected"] ∧
    removeClient (removeClient reg c).1 c = ((removeClient reg c).1, []) := by
  refine ⟨?_, ?_, ?_⟩
  · unfold removeClient
    rw [h2]
  · unfold removeClient
    rw [h]
  · have h1 : (removeClient reg c).1 = reg.filter (fun p => p.1 != c) := by
      unfold removeClient
      rw [h]
    rw [h1]
    unfold removeClient
    rw [lookupConn_filter_self]

/-- Claim C5 witness: removing connection 0 from a two-client registry
notifies once; a second removal, and a removal of an absent key, are
no-ops. -/
theorem c5_removeClient_idempotent_witness :
    removeClient [] 5 = ([], []) ∧
    (removeClient [(0, "alice"), (1, "bob")] 0).2
      = ["Client " ++ "alice" ++ " disconnected"] ∧
    removeClient (removeClient [(0, "alice"), (1, "bob")] 0).1 0
      = ((removeClient [(0, "alice"), (1, "bob")] 0).1, []) :=
  c5_removeClient_idempotent [(0, "alice"), (1, "bob")] [] 0 5 "alice"
    (by decide) (by decide)

/-- Claim C6 counterexample: the claim says the registered display name is
the HTML-escape of the trimmed first line. The accept loops only trim; the
HTML escape is applied to message lines, not to names. On the line with a
bold tag, the registered name keeps the raw angle brackets and differs from
the escape of the trimmed line. -/
theorem c6_name_not_html_escaped :
    chatRegisterName " <b>mal</b> \n" = "<b>mal</b>" ∧
    htmlEscape (trimSpace " <b>mal</b> \n") = "&lt;b&gt;mal&lt;/b&gt;" ∧
    chatRegisterName " <b>mal</b> \n" ≠ htmlEscape (trimSpace " <b>mal</b> \n") := by
  decide

/-- Claim C6 as amended: the registered display name is the
whitespace-trimmed first line with no HTML escaping (escaping is applied to
chat message content, not to names); a line blank after trimming registers
as Guest in the part_001 variant, while part_000 registers the trimmed line
as is. The name is never empty and carries no surrounding white space. -/
theorem c6_registered_name_trimmed_not_escaped (line : String) :
    chatRegisterName line
      = (if trimSpace line = "" then "Guest" else trimSpace line) ∧
    trimSpace (chatRegisterName line) = chatRegisterName line ∧
    chatRegisterName line ≠ "" ∧
    sanitizeMessage line = htmlEscape (trimSpace line) ∧
    chatRegisterNamePartZero line = trimSpace line := by
  refine ⟨rfl, ?_, ?_, rfl, rfl⟩
  · unfold chatRegisterName
    by_cases h : trimSpace line = ""
    · rw [if_pos h]
      decide
    · rw [if_neg h]
      exact trimSpace_idem line
  · unfold chatRegisterName
    by_cases h : trimSpace line = ""
    · rw [if_pos h]
      decide
    · rw [if_neg h]
      exact h

/-- Claim C7 counterexample: the claim says /list with bob and carol
registered besides the requester returns exactly the lines bob and carol.
The code also writes the header line and the name of every registered
client, the requester included: with requester alice, the written lines are
the header, alice, bob and carol, so not every written line is a bob or
carol line. -/
theorem c7_list_output_not_just_bob_carol :
    (handleCommand [(0, "alice"), (1, "bob"), (2, "carol")] 0 "/list").map Prod.snd
      = ["Online users:\n", "alice\n", "bob\n", "carol\n"] ∧
    ¬ (∀ w ∈ handleCommand [(0, "alice"), (1, "bob"), (2, "carol")] 0 "/list",
        w.2 = "bob\n" ∨ w.2 = "carol\n" ∨ w.2 = "bob" ∨ w.2 = "carol") := by
  decide

/-- Claim C7 as amended: a /list line writes, to the requesting connection
only, the header line and then one line per registered client name, the
requester included, in registry order; it never writes to another
connection and leaves the registry unchanged. -/
theorem c7_list_writes_header_and_all_names (reg : ChatRegistry) (conn : Conn)
    (name : String) :
    (handleClientLine reg conn name "/list").2 = reg ∧
    (handleClientLine reg conn name "/list").1
      = (conn, "Online users:\n") :: reg.map (fun p => (conn, p.2 ++ "\n")) ∧
    ∀ w ∈ (handleClientLine reg conn name "/list").1, w.1 = conn := by
  have hs : sanitizeMessage "/list" = "/list" := by decide
  unfold handleClientLine
  rw [hs, if_pos (by decide)]
  unfold handleCommand
  rw [if_pos rfl]
  refine ⟨rfl, rfl, ?_⟩
  intro w hw
  rcases List.mem_cons.mp hw with h | h
  · rw [h]
  · obtain ⟨p, _, hp⟩ := List.mem_map.mp h
    rw [← hp]

/-- Claim C8 counterexample: the claim says a structured, newline-terminated
response is written back for every first line, those that fail to parse
included. On a parse failure, processHandshake of every variant returns the
error without writing anything: the write list is empty. -/
theorem c8_no_reject_record_on_parse_failure :
    processHandshake none "the message of the day" = ([], true) := rfl

/-- Claim C8 as amended: for a first line that parses as a handshake record,
exactly one response record, newline terminated, is written before any
message is read, on the accept and on the reject path alike, and the
validator accepts exactly the expected magic with a nonempty client name;
for a first line that fails to parse, no response is written and the
handshake returns the error, so the connection is closed without a reject
record. -/
theorem c8_response_written_iff_parsed (req : HandshakeReq) (motd : String) :
    (processHandshake (some req) motd).1
      = [encodeHandshakeRes (handshakeResponse req motd) ++ "\n"] ∧
    (processHandshake (some req) motd).2 = false ∧
    ((handshakeResponse req motd).Success = true ↔
      (req.Magic = expectedMagic ∧ req.Client ≠ "")) ∧
    processHandshake none motd = ([], true) := by
  refine ⟨rfl, rfl, ?_, rfl⟩
  unfold handshakeResponse sendResponse
  by_cases h : req.Magic ≠ expectedMagic ∨ req.Client = ""
  · rw [if_pos h]
    simp only [Bool.false_eq_true, false_iff]
    tauto
  · rw [if_neg h]
    simp only [true_iff]
    tauto

/-- Claim C9: every message the reader loop of src/server.go enqueues has an
empty receiver field, and a queue of such messages is dispatched entirely
through the broadcast branch: the run equals the concatenation of the
broadcasts, never touches the directed branch and never wedges the loop. -/
theorem c9_client_messages_never_directed (q : List Message) (reg : Registry)
    (h : ∀ m ∈ q, m.Receiver = "") :
    handleMessages false q reg
      = some (q.flatMap fun m => broadcastMessage reg m.Sender m.Content) ∧
    ∀ clientID content, (queuedMessage clientID content).Receiver = "" :=
  ⟨handleMessages_all_broadcast reg q h, fun _ _ => rfl⟩

/-- Claim C9 witness: the queue holding the one record handleConn builds for
the line alice sent dispatches as its broadcast. -/
theorem c9_client_messages_never_directed_witness :
    handleMessages false [queuedMessage "alice" "hi"] [(0, "alice"), (1, "bob")]
      = some ([queuedMessage "alice" "hi"].flatMap
          (fun m => broadcastMessage [(0, "alice"), (1, "bob")] m.Sender m.Content)) ∧
    (queuedMessage "alice" "hi").Receiver = "" :=
  ⟨(c9_client_messages_never_directed [queuedMessage "alice" "hi"]
      [(0, "alice"), (1, "bob")] (by decide)).1,
   (c9_client_messages_never_directed [] [] (by simp)).2 "alice" "hi"⟩

/-- Claim C10: an escaped line that begins with the command prefix but is
not the list command makes handleCommand write the single unknown-command
line back to the issuing connection alone, and the registry is unchanged. -/
theorem c10_unknown_command_local (reg : ChatRegistry) (conn : Conn)
    (name line : String)
    (h1 : goHasPrefix (sanitizeMessage line) "/" = true)
    (h2 : sanitizeMessage line ≠ "/list") :
    handleClientLine reg conn name line = ([(conn, "Unknown command\n")], reg) := by
  unfold handleClientLine
  rw [if_pos h1]
  unfold handleCommand
  rw [if_neg h2]

/-- Claim C10 witness: the unknown command of a slash-w-h-o line is answered
with the unknown-command line only, the registry untouched. -/
theorem c10_unknown_command_local_witness :
    handleClientLine [(0, "alice"), (1, "bob")] 0 "alice" "/who"
      = ([((0 : Conn), "Unknown command\n")], [(0, "alice"), (1, "bob")]) :=
  c10_unknown_command_local [(0, "alice"), (1, "bob")] 0 "alice" "/who"
    (by decide) (by decide)

end Sipp
